import Mathlib

/-!
Verification of the deployment-artifact workflow of `datasette-publish-dokploy`
(`datasette_publish_dokploy/__init__.py`), as a shallow embedding in Lean.

Python strings are modelled as Lean `String`/`List Char` (unicode scalar
values; Python strings holding lone surrogates are not representable and do
not arise here).  Machine-level details (file IO, subprocesses) are modelled
by recording the calls the code would issue.
-/

namespace PublishDokploy

/-! ### Model of `json.dumps` (CPython `json.encoder`, default options)

`json.dumps` with default options escapes, per character: backslash, double
quote, the short escapes for backspace/formfeed/newline/carriage-return/tab,
and (because `ensure_ascii` defaults to true) every character outside
U+0020..U+007E as `\uXXXX` (a surrogate pair for astral characters).  -/

def hexDigitChar (n : Nat) : Char :=
  Char.ofNat (if n < 10 then 48 + n else 87 + n)

def hex4 (n : Nat) : List Char :=
  [hexDigitChar (n / 4096 % 16), hexDigitChar (n / 256 % 16),
   hexDigitChar (n / 16 % 16), hexDigitChar (n % 16)]

def jsonEscapeChar (c : Char) : List Char :=
  if c = '\\' then ['\\', '\\']
  else if c = '"' then ['\\', '"']
  else if c = '\x08' then ['\\', 'b']
  else if c = '\x0c' then ['\\', 'f']
  else if c = '\n' then ['\\', 'n']
  else if c = '\x0d' then ['\\', 'r']
  else if c = '\t' then ['\\', 't']
  else if 0x20 ≤ c.toNat ∧ c.toNat ≤ 0x7e then [c]
  else if c.toNat < 0x10000 then '\\' :: 'u' :: hex4 c.toNat
  else
    ('\\' :: 'u' :: hex4 (0xd800 ||| (((c.toNat - 0x10000) >>> 10) &&& 0x3ff))) ++
    ('\\' :: 'u' :: hex4 (0xdc00 ||| ((c.toNat - 0x10000) &&& 0x3ff)))

/-- Characters of the JSON string literal for `s` (a double-quoted,
escaped rendering, as `json.dumps` produces). -/
def jsonStringChars (s : List Char) : List Char :=
  '"' :: (s.map jsonEscapeChar).flatten ++ ['"']

/-- Decimal digits of `n`, most significant first (Python `str` of a
nonnegative `int`). -/
def toDecimal (n : Nat) : List Char :=
  if h : n < 10 then [Char.ofNat (48 + n)]
  else toDecimal (n / 10) ++ [Char.ofNat (48 + n % 10)]
decreasing_by exact Nat.div_lt_self (by omega) (by omega)

/-- Decimal rendering of an integer (Python `str` of an `int`). -/
def intDecimal (i : Int) : List Char :=
  if i < 0 then '-' :: toDecimal i.natAbs else toDecimal i.toNat

/-- Typed setting value: the `Setting` CLI converter produces a boolean, an
integer or a string depending on the runtime type of the registered default. -/
inductive PyVal where
  | pbool (b : Bool)
  | pint (i : Int)
  | pstr (s : String)
deriving DecidableEq

/-- JSON rendering of one value, as `json.dumps` serializes it
(booleans in lowercase). -/
def jsonValChars : PyVal → List Char
  | .pbool true => ['t', 'r', 'u', 'e']
  | .pbool false => ['f', 'a', 'l', 's', 'e']
  | .pint i => intDecimal i
  | .pstr s => jsonStringChars s.toList

def sepJoin (sep : List Char) : List (List Char) → List Char
  | [] => []
  | [x] => x
  | x :: y :: xs => x ++ sep ++ sepJoin sep (y :: xs)

/-- JSON array of strings, with the default `", "` item separator:
model of `json.dumps(list_of_str)`. -/
def jsonArrayChars (xs : List (List Char)) : List Char :=
  '[' :: sepJoin [',', ' '] (xs.map jsonStringChars) ++ [']']

/-- JSON object, with the default `", "` / `": "` separators: model of
`json.dumps(dict)` for string keys and bool/int/str values. -/
def jsonObjChars (m : List (List Char × PyVal)) : List Char :=
  '\x7b' :: sepJoin [',', ' ']
      (m.map fun p => jsonStringChars p.1 ++ ':' :: ' ' :: jsonValChars p.2) ++ ['\x7d']

def pyJsonDumpsStrList (xs : List String) : String :=
  String.mk (jsonArrayChars (xs.map String.toList))

def pyJsonDumpsSettings (m : List (String × PyVal)) : String :=
  String.mk (jsonObjChars (m.map fun p => (p.1.toList, p.2)))

/-- JSON string literal for `s`, string-level. -/
def jsonString (s : String) : String :=
  String.mk (jsonStringChars s.toList)

/-! ### Model of `json.loads` (CPython `json.scanner`, strict mode)

The scanner below re-parses the literals the renderer embeds.  It follows
the CPython scanner routine: a string body ends at `"`, `\` starts an escape,
raw control characters are rejected (strict mode), `\uXXXX` accepts either
hex case, and a high surrogate escape immediately followed by a low
surrogate escape is combined into one astral character.  Lone surrogates
(which CPython turns into unpaired-surrogate strings) have no `Char`
counterpart and are rejected. -/

def hexVal? (c : Char) : Option Nat :=
  if '0' ≤ c ∧ c ≤ '9' then some (c.toNat - 48)
  else if 'a' ≤ c ∧ c ≤ 'f' then some (c.toNat - 87)
  else if 'A' ≤ c ∧ c ≤ 'F' then some (c.toNat - 55)
  else none

def scanJStringF : Nat → List Char → Option (List Char × List Char)
  | 0, _ => none
  | _ + 1, [] => none
  | fuel + 1, c :: rest =>
    if c = '"' then some ([], rest)
    else if c = '\\' then
      match rest with
      | [] => none
      | e :: r =>
        if e = '"' then (scanJStringF fuel r).map fun p => ('"' :: p.1, p.2)
        else if e = '\\' then (scanJStringF fuel r).map fun p => ('\\' :: p.1, p.2)
        else if e = '/' then (scanJStringF fuel r).map fun p => ('/' :: p.1, p.2)
        else if e = 'b' then (scanJStringF fuel r).map fun p => ('\x08' :: p.1, p.2)
        else if e = 'f' then (scanJStringF fuel r).map fun p => ('\x0c' :: p.1, p.2)
        else if e = 'n' then (scanJStringF fuel r).map fun p => ('\n' :: p.1, p.2)
        else if e = 'r' then (scanJStringF fuel r).map fun p => ('\x0d' :: p.1, p.2)
        else if e = 't' then (scanJStringF fuel r).map fun p => ('\t' :: p.1, p.2)
        else if e = 'u' then
          match r with
          | h3 :: h2 :: h1 :: h0 :: r2 =>
            match hexVal? h3, hexVal? h2, hexVal? h1, hexVal? h0 with
            | some x3, some x2, some x1, some x0 =>
              let n := ((x3 * 16 + x2) * 16 + x1) * 16 + x0
              if 0xd800 ≤ n ∧ n ≤ 0xdbff then
                match r2 with
                | b1 :: b2 :: g3 :: g2 :: g1 :: g0 :: r3 =>
                  if b1 = '\\' ∧ b2 = 'u' then
                    match hexVal? g3, hexVal? g2, hexVal? g1, hexVal? g0 with
                    | some y3, some y2, some y1, some y0 =>
                      let m := ((y3 * 16 + y2) * 16 + y1) * 16 + y0
                      if 0xdc00 ≤ m ∧ m ≤ 0xdfff then
                        (scanJStringF fuel r3).map fun p =>
                          (Char.ofNat (0x10000 + (n - 0xd800) * 1024 + (m - 0xdc00)) :: p.1, p.2)
                      else none
                    | _, _, _, _ => none
                  else none
                | _ => none
              else if 0xdc00 ≤ n ∧ n ≤ 0xdfff then none
              else (scanJStringF fuel r2).map fun p => (Char.ofNat n :: p.1, p.2)
            | _, _, _, _ => none
          | _ => none
        else none
    else if c.toNat < 0x20 then none
    else (scanJStringF fuel rest).map fun p => (c :: p.1, p.2)

/-- Scan a JSON string body.  Every recursion step of the scanner consumes at
least one input character, so `length + 1` units of fuel always suffice; the
fuel only serves to make the recursion structural. -/
def scanJString (l : List Char) : Option (List Char × List Char) :=
  scanJStringF (l.length + 1) l

/-- Parse a double-quoted JSON string literal at the head of the input. -/
def parseJStringTok : List Char → Option (List Char × List Char)
  | [] => none
  | c :: rest => if c = '"' then scanJString rest else none

def parseDigitsAux (acc : Nat) : List Char → Nat × List Char
  | [] => (acc, [])
  | c :: rest =>
    if c.isDigit then parseDigitsAux (acc * 10 + (c.toNat - 48)) rest
    else (acc, c :: rest)

/-- Parse a nonempty run of decimal digits at the head of the input. -/
def parseDigits : List Char → Option (Nat × List Char)
  | [] => none
  | c :: rest =>
    if c.isDigit then some (parseDigitsAux (c.toNat - 48) rest) else none

/-- Parse one JSON value of the shapes `json.dumps` emits for settings
values: `true`, `false`, an integer, or a string literal. -/
def parseJVal : List Char → Option (PyVal × List Char)
  | [] => none
  | c :: rest =>
    if c = 't' then
      match rest with
      | 'r' :: 'u' :: 'e' :: r => some (.pbool true, r)
      | _ => none
    else if c = 'f' then
      match rest with
      | 'a' :: 'l' :: 's' :: 'e' :: r => some (.pbool false, r)
      | _ => none
    else if c = '"' then
      (scanJString rest).map fun p => (.pstr (String.mk p.1), p.2)
    else if c = '-' then
      (parseDigits rest).map fun p => (.pint (-(p.1 : Int)), p.2)
    else if c.isDigit then
      (parseDigits (c :: rest)).map fun p => (.pint (p.1 : Int), p.2)
    else none

/-- Items of a string array after the first item: `]` closes, `, ` precedes
each further item.  Fuel bounds the recursion. -/
def parseArrayRest (fuel : Nat) (l : List Char) :
    Option (List (List Char) × List Char) :=
  match fuel, l with
  | _, [] => none
  | 0, _ => none
  | fuel + 1, c :: rest =>
    if c = ']' then some ([], rest)
    else
      match rest with
      | [] => none
      | c2 :: rest2 =>
        if c = ',' ∧ c2 = ' ' then
          match parseJStringTok rest2 with
          | some (s, r) => (parseArrayRest fuel r).map fun p => (s :: p.1, p.2)
          | none => none
        else none

/-- Parse a JSON array of string literals in the form `json.dumps` emits. -/
def parseArrayTok : List Char → Option (List (List Char) × List Char)
  | [] => none
  | c :: rest =>
    if c = '[' then
      match rest with
      | [] => none
      | c2 :: rest2 =>
        if c2 = ']' then some ([], rest2)
        else
          match parseJStringTok (c2 :: rest2) with
          | some (s, r) => (parseArrayRest (r.length + 1) r).map fun p => (s :: p.1, p.2)
          | none => none
    else none

/-- Parse one `"key": value` pair. -/
def parseJPair (l : List Char) : Option ((List Char × PyVal) × List Char) :=
  match parseJStringTok l with
  | some (k, r) =>
    match r with
    | c1 :: c2 :: r2 =>
      if c1 = ':' ∧ c2 = ' ' then
        (parseJVal r2).map fun p => ((k, p.1), p.2)
      else none
    | _ => none
  | none => none

/-- Pairs of an object after the first pair: closing brace ends, `, `
precedes each further pair. -/
def parseObjRest (fuel : Nat) (l : List Char) :
    Option (List (List Char × PyVal) × List Char) :=
  match fuel, l with
  | _, [] => none
  | 0, _ => none
  | fuel + 1, c :: rest =>
    if c = '\x7d' then some ([], rest)
    else
      match rest with
      | [] => none
      | c2 :: rest2 =>
        if c = ',' ∧ c2 = ' ' then
          match parseJPair rest2 with
          | some (kv, r) => (parseObjRest fuel r).map fun p => (kv :: p.1, p.2)
          | none => none
        else none

/-- Parse a JSON object of string keys and bool/int/string values in the
form `json.dumps` emits. -/
def parseObjTok : List Char → Option (List (List Char × PyVal) × List Char)
  | [] => none
  | c :: rest =>
    if c = '\x7b' then
      match rest with
      | [] => none
      | c2 :: rest2 =>
        if c2 = '\x7d' then some ([], rest2)
        else
          match parseJPair (c2 :: rest2) with
          | some (kv, r) => (parseObjRest (r.length + 1) r).map fun p => (kv :: p.1, p.2)
          | none => none
    else none

/-- Re-parse an embedded JSON array-of-strings literal (whole input). -/
def pyJsonLoadsStrList (s : String) : Option (List String) :=
  match parseArrayTok s.toList with
  | some (items, []) => some (items.map String.mk)
  | _ => none

/-- Re-parse an embedded JSON settings-object literal (whole input). -/
def pyJsonLoadsSettings (s : String) : Option (List (String × PyVal)) :=
  match parseObjTok s.toList with
  | some (pairs, []) => some (pairs.map fun p => (String.mk p.1, p.2))
  | _ => none

/-- Heads of lists that cannot extend a decimal-digit run (used to state
where a greedy integer parse stops). -/
def headNotDigit : List Char → Bool
  | [] => true
  | c :: _ => !c.isDigit

/-! ### Python string helpers -/

/-- Characters of Python `str.strip()` (whitespace model restricted to the
ASCII whitespace that arises here). -/
def pyStrip (l : List Char) : List Char :=
  ((l.dropWhile Char.isWhitespace).reverse.dropWhile Char.isWhitespace).reverse

def pyStripStr (s : String) : String := String.mk (pyStrip s.toList)

/-- Python `str.lower()` (ASCII model). -/
def pyLower (l : List Char) : List Char := l.map Char.toLower

/-- Python `str.rstrip("/")`: remove every trailing slash. -/
def pyRstripSlash (s : String) : String :=
  String.mk ((s.toList.reverse.dropWhile fun c => c = '/').reverse)

/-- Python `os.path.split(f)[-1]` on POSIX: the part after the last `/`. -/
def path_basename (f : String) : String := (f.splitOn "/").getLastD ""

/-- Model of Python `int(s)` for decimal literals: optional surrounding
whitespace, an optional sign, then digits with single underscores allowed
between digits. -/
def digitsGroupGo (acc : Nat) : List Char → Option Nat
  | [] => some acc
  | '_' :: c :: rest =>
    if c.isDigit then digitsGroupGo (acc * 10 + (c.toNat - 48)) rest else none
  | c :: rest =>
    if c.isDigit then digitsGroupGo (acc * 10 + (c.toNat - 48)) rest else none

def digitsGroupVal : List Char → Option Nat
  | [] => none
  | c :: rest => if c.isDigit then digitsGroupGo (c.toNat - 48) rest else none

def pyInt? (s : String) : Option Int :=
  match pyStrip s.toList with
  | '+' :: rest => (digitsGroupVal rest).map fun n => (n : Int)
  | '-' :: rest => (digitsGroupVal rest).map fun n => -(n : Int)
  | l => (digitsGroupVal l).map fun n => (n : Int)

/-! ### Embedding of `datasette_publish_dokploy/__init__.py` -/

/-- Model of `_looks_like_datasette_requirement` (lines 246-254): strip and
lowercase, require the `datasette` prefix, accept an exact match or a next
character among `= < > ! ~ [ space`. -/
def _looks_like_datasette_requirement (req : String) : Bool :=
  let r := pyLower (pyStrip req.toList)
  if "datasette".toList.isPrefixOf r then
    if r = "datasette".toList then true
    else
      match r.drop 9 with
      | c :: _ => ['=', '<', '>', '!', '~', '[', ' '].contains c
      | [] => false
  else false

/-- Model of Python `dict(pairs)`: insertion keeps the position of the first
occurrence of a key, assignment overwrites the value. -/
def dictInsert (acc : List (String × PyVal)) (kv : String × PyVal) :
    List (String × PyVal) :=
  if acc.any fun p => p.1 == kv.1 then
    acc.map fun p => if p.1 == kv.1 then (p.1, kv.2) else p
  else acc ++ [kv]

def pyDict (l : List (String × PyVal)) : List (String × PyVal) :=
  l.foldl dictInsert []

/-- Value a Python dict (as an ordered association list) maps a key to. -/
def lookupVal (m : List (String × PyVal)) (k : String) : Option PyVal :=
  (m.find? fun p => p.1 == k).map Prod.snd

/-- Segments of the `INDEX_PY` template (lines 20-51), split at the five
format holes `{statics}`, `{database_files}`, `{extras}`, `{settings}`,
`{crossdb}`. -/
def INDEX_PY_seg1 : String :=
  "from datasette.app import Datasette\nimport json\nimport pathlib\nimport os\n\nstatic_mounts = [\n    (static, str((pathlib.Path(\".\") / static).resolve()))\n    for static in "

def INDEX_PY_seg2 : String :=
  "\n]\n\nmetadata = dict()\ntry:\n    metadata = json.load(open(\"metadata.json\"))\nexcept Exception:\n    pass\n\nsecret = os.environ.get(\"DATASETTE_SECRET\")\n\ntrue, false = True, False\n\nds = Datasette(\n    [],\n    "

def INDEX_PY_seg3 : String := ",\n    static_mounts=static_mounts,\n    metadata=metadata"

def INDEX_PY_seg4 : String := ",\n    secret=secret,\n    cors=True,\n    settings="

def INDEX_PY_seg5 : String := "\n)\napp = ds.app()"

/-- Model of `INDEX_PY.format(...)`. -/
def INDEX_PY_format (database_files extras statics settings crossdb : String) :
    String :=
  INDEX_PY_seg1 ++ statics ++ INDEX_PY_seg2 ++ database_files ++ INDEX_PY_seg3 ++
    extras ++ INDEX_PY_seg4 ++ settings ++ crossdb ++ INDEX_PY_seg5

/-- The fixed build recipe (lines 53-67). -/
def DOCKERFILE : String :=
  "FROM python:3.12-slim\n\nWORKDIR /app\n\nCOPY requirements.txt ./\nRUN pip install --no-cache-dir -r requirements.txt\n\nCOPY . .\n\nENV PORT=8001\nEXPOSE 8001\n\nCMD [\"uvicorn\", \"index:app\", \"--host\", \"0.0.0.0\", \"--port\", \"8001\"]\n"

/-- Python truthiness of the optional string options (`click` passes `None`
when an option is absent; an empty string is also falsy). -/
def truthy : Option String → Bool
  | none => false
  | some s => !(s == "")

def datasette_branch_url (branch : String) : String :=
  "https://github.com/simonw/datasette/archive/" ++ branch ++ ".zip"

/-- Content of the generated `requirements.txt` (lines 363-381): the resolved
framework requirement, the two fixed helpers, then the remaining install
entries. -/
def requirements_content (install : List String) (branch : Option String) :
    String :=
  let datasette_from_install := install.find? _looks_like_datasette_requirement
  let datasette_install :=
    if truthy branch && datasette_from_install.isNone then
      datasette_branch_url (branch.getD "")
    else datasette_from_install.getD "datasette"
  let remaining :=
    if datasette_from_install.isSome then
      install.filter fun r => !_looks_like_datasette_requirement r
    else install
  String.intercalate "\n" ([datasette_install, "pysqlite3-binary", "uvicorn"] ++ remaining)

/-- Observable data of one `curl` subprocess run, as `_curl_check` consumes
it: exit code, captured standard output (the `-w` status line), captured
standard error, and the content of the `-o` body file. -/
structure CurlResult where
  returncode : Int
  stdout : String
  stderr : String
  body : String
deriving DecidableEq

/-- Status code `_curl_check` derives from the client output (lines
220-226): `int(stdout)` when the stripped stdout is nonempty and parses,
otherwise 0. -/
def curlStatus (r : CurlResult) : Int :=
  let stdout := pyStripStr r.stdout
  if stdout = "" then 0 else (pyInt? stdout).getD 0

/-- Model of `_curl_check` (lines 198-243) after the subprocess ran: error
on non-zero exit (text: stripped stderr, or a fallback naming the exit
code), error on a status outside [200,300) (text: `HTTP <status>: ` plus the
stripped body or a placeholder), else the body. -/
def _curl_check (r : CurlResult) : Except String String :=
  let stderr := pyStripStr r.stderr
  let status := curlStatus r
  if r.returncode ≠ 0 then
    .error (if stderr ≠ "" then stderr
      else "curl failed with code " ++ toString r.returncode)
  else if status < 200 ∨ 300 ≤ status then
    .error ("HTTP " ++ toString status ++ ": " ++
      (if pyStripStr r.body = "" then "(empty response body)" else pyStripStr r.body))
  else .ok r.body

/-- One HTTP request as handed to the `curl` subprocess. -/
structure CurlCall where
  url : String
  method : String
  headers : List String
  data : Option String
deriving DecidableEq

/-- Model of `_trigger_dokploy` (lines 257-269): the single POST request it
issues. -/
def _trigger_dokploy (dokploy_url application_id api_key : String) : CurlCall :=
  { url := pyRstripSlash dokploy_url ++ "/api/application.deploy"
    method := "POST"
    headers := ["x-api-key: " ++ api_key, "accept: application/json",
      "content-type: application/json"]
    data := some (String.mk (jsonObjChars [("applicationId".toList, .pstr application_id)])) }

/-- Model of `_trigger_webhook` (lines 272-276): the single POST request it
issues. -/
def _trigger_webhook (deploy_url : String) (token : Option String) : CurlCall :=
  { url := deploy_url
    method := "POST"
    headers := if truthy token then ["Authorization: Bearer " ++ token.getD ""] else []
    data := none }

/-- The `_publish` inputs that the modelled control flow depends on.
Metadata, extra options, secrets and the descriptive fields only flow into
the staged files and are omitted. -/
structure PublishArgs where
  files : List String := []
  branch : Option String := none
  template_dir : Option String := none
  plugins_dir : Option String := none
  static : List (String × String) := []
  install : List String := []
  image : Option String := none
  generate_dir : Option String := none
  generate_github_actions : Bool := false
  dokploy_url : Option String := none
  application_id : Option String := none
  api_key : Option String := none
  deploy_url : Option String := none
  token : Option String := none
  settings : List (String × PyVal) := []
  crossdb : Bool := false

inductive Outcome where
  | workflowEchoed
  | usageError (msg : String)
  | generated (dir : String)
  | buildFailed
  | completed
deriving DecidableEq

def Outcome.isUsageError : Outcome → Bool
  | .usageError _ => true
  | _ => false

/-- Result of one `_publish` run: its outcome, the container-engine and
HTTP-client invocations it performed, the file names present in the bundle
root, and the three rendered artifacts. -/
structure PublishResult where
  outcome : Outcome
  dockerCalls : List (List String)
  curlCalls : List CurlCall
  bundleFiles : List String
  artifacts : List (String × String)
deriving DecidableEq

/-- Modelled from the spec: `temporary_docker_directory` (from
`datasette.utils`, not part of this repository) stages the supplied database
files into the bundle root, by basename, along with metadata and any
template/plugin/static trees; only the database-file names are needed
here. -/
def staged_files (files : List String) : List String := files.map path_basename

def conflictMsg : String :=
  "Cannot use --branch and --install datasette... at the same time"

def imageMsg : String :=
  "--image is required for direct deployment. Use --generate-dir to export files instead."

/-- The `{extras}` hole (lines 346-356): `template_dir`/`plugins_dir`
directives, comma-prefixed when present. -/
def extras_fragment (template_dir plugins_dir : Option String) : String :=
  let extras := (if truthy template_dir then ["template_dir=\"templates\""] else []) ++
    (if truthy plugins_dir then ["plugins_dir=\"plugins\""] else [])
  if extras.isEmpty then "" else ", " ++ String.intercalate ", " extras

/-- The rendered `index.py` (lines 352-361): basenames, static labels and
the merged settings dict serialized as JSON literals into the template. -/
def index_py_content (files : List String) (static : List (String × String))
    (template_dir plugins_dir : Option String) (settings : List (String × PyVal))
    (crossdb : Bool) : String :=
  INDEX_PY_format
    (pyJsonDumpsStrList (files.map path_basename))
    (extras_fragment template_dir plugins_dir)
    (pyJsonDumpsStrList (static.map Prod.fst))
    (pyJsonDumpsSettings (pyDict settings))
    (if crossdb then ",\n    crossdb=True" else "")

/-- Model of `_publish` (lines 279-415).  `dockerOk` abstracts whether the
`docker build`/`docker push` subprocesses succeed; the HTTP responses of the
trigger calls are abstracted away (the calls themselves are recorded). -/
def publish_model (a : PublishArgs) (dockerOk : Bool) : PublishResult :=
  if a.generate_github_actions then
    { outcome := .workflowEchoed, dockerCalls := [], curlCalls := [],
      bundleFiles := [], artifacts := [] }
  else
    let staged := staged_files a.files
    let indexPy := index_py_content a.files a.static a.template_dir
      a.plugins_dir a.settings a.crossdb
    let datasette_from_install := a.install.find? _looks_like_datasette_requirement
    if datasette_from_install.isSome && truthy a.branch then
      { outcome := .usageError conflictMsg, dockerCalls := [], curlCalls := [],
        bundleFiles := staged ++ ["Dockerfile", "index.py"],
        artifacts := [("Dockerfile", DOCKERFILE), ("index.py", indexPy)] }
    else
      let reqs := requirements_content a.install a.branch
      let bundleFiles := staged ++ ["Dockerfile", "index.py", "requirements.txt"]
      let artifacts := [("Dockerfile", DOCKERFILE), ("index.py", indexPy),
        ("requirements.txt", reqs)]
      if truthy a.generate_dir then
        { outcome := .generated (a.generate_dir.getD ""), dockerCalls := [],
          curlCalls := [], bundleFiles := bundleFiles, artifacts := artifacts }
      else if !truthy a.image then
        { outcome := .usageError imageMsg, dockerCalls := [], curlCalls := [],
          bundleFiles := bundleFiles, artifacts := artifacts }
      else if !dockerOk then
        { outcome := .buildFailed,
          dockerCalls := [["docker", "build", "-t", a.image.getD "", "."]],
          curlCalls := [], bundleFiles := bundleFiles, artifacts := artifacts }
      else
        { outcome := .completed,
          dockerCalls := [["docker", "build", "-t", a.image.getD "", "."],
            ["docker", "push", a.image.getD ""]],
          curlCalls :=
            if truthy a.dokploy_url && truthy a.application_id && truthy a.api_key then
              [_trigger_dokploy (a.dokploy_url.getD "") (a.application_id.getD "")
                (a.api_key.getD "")]
            else if truthy a.deploy_url then
              [_trigger_webhook (a.deploy_url.getD "") a.token]
            else [],
          bundleFiles := bundleFiles, artifacts := artifacts }

/-- Example invocation: workflow mode together with the
branch/requirement conflict. -/
def wfConflictArgs : PublishArgs :=
  { files := ["test.db"], install := ["datasette"], branch := some "main",
    generate_github_actions := true }

/-- Example invocation: generate-only mode together with the
branch/requirement conflict. -/
def genConflictArgs : PublishArgs :=
  { files := ["test.db"], install := ["datasette"], branch := some "main",
    generate_dir := some "app" }

/-- Example invocation: plain generate-only mode. -/
def genArgs : PublishArgs :=
  { files := ["test.db"], generate_dir := some "app" }

/-- Example invocation: direct deployment with the API triple and a webhook
URL both supplied. -/
def apiArgs : PublishArgs :=
  { files := ["test.db"], image := some "ghcr.io/me/repo:latest",
    dokploy_url := some "https://dokploy.example.com",
    application_id := some "app-123", api_key := some "secret",
    deploy_url := some "https://dokploy.example.com/hook" }

/-! ### Round-trip: the scanner inverts the escaper -/

theorem hexVal_hexDigitChar : ∀ d, d < 16 → hexVal? (hexDigitChar d) = some d := by
  decide

set_option maxRecDepth 16384

theorem lor_d800 : ∀ z, z < 1024 → 0xd800 ||| z = 0xd800 + z := by decide

theorem lor_dc00 : ∀ z, z < 1024 → 0xdc00 ||| z = 0xdc00 + z := by decide

theorem and_1023_eq_mod (k : Nat) : k &&& 0x3ff = k % 1024 := by
  have h : (0x3ff : Nat) = 2 ^ 10 - 1 := by norm_num
  rw [h, Nat.and_pow_two_sub_one_eq_mod]

theorem char_toNat_zero_char : (Char.ofNat 0).toNat = 0 := by decide

theorem char_not_surrogate (c : Char) :
    ¬(0xd800 ≤ c.toNat ∧ c.toNat ≤ 0xdfff) := by
  intro h
  have h2 : ¬Nat.isValidChar c.toNat := by
    simp only [Nat.isValidChar]
    omega
  have h3 := Char.ofNat_toNat c
  rw [Char.ofNat, dif_neg h2] at h3
  have h4 : c.toNat = 0 := by rw [← h3]; rfl
  omega

theorem char_toNat_lt (c : Char) : c.toNat < 0x110000 := by
  by_contra h
  have h2 : ¬Nat.isValidChar c.toNat := by
    simp only [Nat.isValidChar]
    omega
  have h3 := Char.ofNat_toNat c
  rw [Char.ofNat, dif_neg h2] at h3
  have h4 : c.toNat = 0 := by rw [← h3]; rfl
  omega

theorem scanJStringF_quote (fuel : Nat) (rest : List Char) :
    scanJStringF (fuel + 1) ('"' :: rest) = some ([], rest) := by
  simp [scanJStringF]

theorem scanJStringF_esc (e c : Char) (fuel : Nat) (rest : List Char)
    (h : (e, c) ∈ [('"', '"'), ('\\', '\\'), ('/', '/'), ('b', '\x08'),
      ('f', '\x0c'), ('n', '\n'), ('r', '\x0d'), ('t', '\t')]) :
    scanJStringF (fuel + 1) ('\\' :: e :: rest) =
      (scanJStringF fuel rest).map fun p => (c :: p.1, p.2) := by
  simp only [List.mem_cons, List.not_mem_nil, or_false, Prod.mk.injEq] at h
  rcases h with ⟨he, hc⟩ | ⟨he, hc⟩ | ⟨he, hc⟩ | ⟨he, hc⟩ | ⟨he, hc⟩ | ⟨he, hc⟩ |
    ⟨he, hc⟩ | ⟨he, hc⟩ <;> subst he <;> subst hc <;> simp [scanJStringF]

theorem scanJStringF_plain (c : Char) (fuel : Nat) (rest : List Char)
    (h1 : ¬c = '"') (h2 : ¬c = '\\') (h3 : ¬c.toNat < 0x20) :
    scanJStringF (fuel + 1) (c :: rest) =
      (scanJStringF fuel rest).map fun p => (c :: p.1, p.2) := by
  simp only [scanJStringF]
  rw [if_neg h1, if_neg h2, if_neg h3]

theorem scanJStringF_u_bmp (d3 d2 d1 d0 : Char) (x3 x2 x1 x0 : Nat)
    (fuel : Nat) (r : List Char)
    (e3 : hexVal? d3 = some x3) (e2 : hexVal? d2 = some x2)
    (e1 : hexVal? d1 = some x1) (e0 : hexVal? d0 = some x0)
    (hhi : ¬(0xd800 ≤ ((x3 * 16 + x2) * 16 + x1) * 16 + x0 ∧
        ((x3 * 16 + x2) * 16 + x1) * 16 + x0 ≤ 0xdbff))
    (hlo : ¬(0xdc00 ≤ ((x3 * 16 + x2) * 16 + x1) * 16 + x0 ∧
        ((x3 * 16 + x2) * 16 + x1) * 16 + x0 ≤ 0xdfff)) :
    scanJStringF (fuel + 1) ('\\' :: 'u' :: d3 :: d2 :: d1 :: d0 :: r) =
      (scanJStringF fuel r).map fun p =>
        (Char.ofNat (((x3 * 16 + x2) * 16 + x1) * 16 + x0) :: p.1, p.2) := by
  simp only [scanJStringF, e3, e2, e1, e0]
  simp [hhi, hlo]

theorem scanJStringF_u_pair (d3 d2 d1 d0 g3 g2 g1 g0 : Char)
    (x3 x2 x1 x0 y3 y2 y1 y0 : Nat) (fuel : Nat) (r : List Char)
    (e3 : hexVal? d3 = some x3) (e2 : hexVal? d2 = some x2)
    (e1 : hexVal? d1 = some x1) (e0 : hexVal? d0 = some x0)
    (f3 : hexVal? g3 = some y3) (f2 : hexVal? g2 = some y2)
    (f1 : hexVal? g1 = some y1) (f0 : hexVal? g0 = some y0)
    (hn : 0xd800 ≤ ((x3 * 16 + x2) * 16 + x1) * 16 + x0 ∧
        ((x3 * 16 + x2) * 16 + x1) * 16 + x0 ≤ 0xdbff)
    (hm : 0xdc00 ≤ ((y3 * 16 + y2) * 16 + y1) * 16 + y0 ∧
        ((y3 * 16 + y2) * 16 + y1) * 16 + y0 ≤ 0xdfff) :
    scanJStringF (fuel + 1) ('\\' :: 'u' :: d3 :: d2 :: d1 :: d0 :: '\\' :: 'u' ::
        g3 :: g2 :: g1 :: g0 :: r) =
      (scanJStringF fuel r).map fun p =>
        (Char.ofNat (0x10000 +
            (((x3 * 16 + x2) * 16 + x1) * 16 + x0 - 0xd800) * 1024 +
            (((y3 * 16 + y2) * 16 + y1) * 16 + y0 - 0xdc00)) :: p.1, p.2) := by
  simp only [scanJStringF, e3, e2, e1, e0, f3, f2, f1, f0]
  simp [hn, hm]

theorem scanJStringF_escape (c : Char) (fuel : Nat) (tail : List Char) :
    scanJStringF (fuel + 1) (jsonEscapeChar c ++ tail) =
      (scanJStringF fuel tail).map fun p => (c :: p.1, p.2) := by
  by_cases h1 : c = '\\'
  · subst h1
    simpa [jsonEscapeChar] using scanJStringF_esc '\\' '\\' fuel tail (by simp)
  by_cases h2 : c = '"'
  · subst h2
    simpa [jsonEscapeChar] using scanJStringF_esc '"' '"' fuel tail (by simp)
  by_cases h3 : c = '\x08'
  · subst h3
    simpa [jsonEscapeChar, h1, h2] using scanJStringF_esc 'b' '\x08' fuel tail (by simp)
  by_cases h4 : c = '\x0c'
  · subst h4
    simpa [jsonEscapeChar, h1, h2, h3] using
      scanJStringF_esc 'f' '\x0c' fuel tail (by simp)
  by_cases h5 : c = '\n'
  · subst h5
    simpa [jsonEscapeChar, h1, h2, h3, h4] using
      scanJStringF_esc 'n' '\n' fuel tail (by simp)
  by_cases h6 : c = '\x0d'
  · subst h6
    simpa [jsonEscapeChar, h1, h2, h3, h4, h5] using
      scanJStringF_esc 'r' '\x0d' fuel tail (by simp)
  by_cases h7 : c = '\t'
  · subst h7
    simpa [jsonEscapeChar, h1, h2, h3, h4, h5, h6] using
      scanJStringF_esc 't' '\t' fuel tail (by simp)
  by_cases h8 : 0x20 ≤ c.toNat ∧ c.toNat ≤ 0x7e
  · have hc : ¬c.toNat < 0x20 := by omega
    rw [show jsonEscapeChar c = [c] by
      simp [jsonEscapeChar, h1, h2, h3, h4, h5, h6, h7, h8]]
    simpa using scanJStringF_plain c fuel tail h2 h1 hc
  by_cases h9 : c.toNat < 0x10000
  · -- single `\uXXXX` escape for a BMP character
    have hs := char_not_surrogate c
    rw [show jsonEscapeChar c = '\\' :: 'u' :: hex4 c.toNat by
      simp [jsonEscapeChar, h1, h2, h3, h4, h5, h6, h7, h8, h9]]
    have e3 := hexVal_hexDigitChar (c.toNat / 4096 % 16) (Nat.mod_lt _ (by omega))
    have e2 := hexVal_hexDigitChar (c.toNat / 256 % 16) (Nat.mod_lt _ (by omega))
    have e1 := hexVal_hexDigitChar (c.toNat / 16 % 16) (Nat.mod_lt _ (by omega))
    have e0 := hexVal_hexDigitChar (c.toNat % 16) (Nat.mod_lt _ (by omega))
    have hstep := scanJStringF_u_bmp _ _ _ _ _ _ _ _ fuel tail e3 e2 e1 e0
      (by omega) (by omega)
    have hn : ((c.toNat / 4096 % 16 * 16 + c.toNat / 256 % 16) * 16 +
        c.toNat / 16 % 16) * 16 + c.toNat % 16 = c.toNat := by omega
    rw [hn] at hstep
    simpa [hex4, Char.ofNat_toNat c] using hstep
  · -- surrogate-pair escape for an astral character
    have hub := char_toNat_lt c
    have hge : 0x10000 ≤ c.toNat := by omega
    rw [show jsonEscapeChar c =
        ('\\' :: 'u' :: hex4 (0xd800 ||| (((c.toNat - 0x10000) >>> 10) &&& 0x3ff))) ++
        ('\\' :: 'u' :: hex4 (0xdc00 ||| ((c.toNat - 0x10000) &&& 0x3ff))) by
      simp [jsonEscapeChar, h1, h2, h3, h4, h5, h6, h7, h8, h9]]
    have hklt : c.toNat - 0x10000 < 1048576 := by omega
    have hsh : (c.toNat - 0x10000) >>> 10 = (c.toNat - 0x10000) / 1024 := by
      have := Nat.shiftRight_eq_div_pow (c.toNat - 0x10000) 10
      simpa using this
    have hdivlt : (c.toNat - 0x10000) / 1024 < 1024 := by omega
    have hhi : 0xd800 ||| (((c.toNat - 0x10000) >>> 10) &&& 0x3ff) =
        0xd800 + (c.toNat - 0x10000) / 1024 := by
      rw [hsh, and_1023_eq_mod, Nat.mod_eq_of_lt hdivlt]
      exact lor_d800 _ hdivlt
    have hmodlt : (c.toNat - 0x10000) % 1024 < 1024 := Nat.mod_lt _ (by omega)
    have hlo : 0xdc00 ||| ((c.toNat - 0x10000) &&& 0x3ff) =
        0xdc00 + (c.toNat - 0x10000) % 1024 := by
      rw [and_1023_eq_mod]
      exact lor_dc00 _ hmodlt
    rw [hhi, hlo]
    set nhi := 0xd800 + (c.toNat - 0x10000) / 1024 with hnhi
    set nlo := 0xdc00 + (c.toNat - 0x10000) % 1024 with hnlo
    have a3 := hexVal_hexDigitChar (nhi / 4096 % 16) (Nat.mod_lt _ (by omega))
    have a2 := hexVal_hexDigitChar (nhi / 256 % 16) (Nat.mod_lt _ (by omega))
    have a1 := hexVal_hexDigitChar (nhi / 16 % 16) (Nat.mod_lt _ (by omega))
    have a0 := hexVal_hexDigitChar (nhi % 16) (Nat.mod_lt _ (by omega))
    have b3 := hexVal_hexDigitChar (nlo / 4096 % 16) (Nat.mod_lt _ (by omega))
    have b2 := hexVal_hexDigitChar (nlo / 256 % 16) (Nat.mod_lt _ (by omega))
    have b1 := hexVal_hexDigitChar (nlo / 16 % 16) (Nat.mod_lt _ (by omega))
    have b0 := hexVal_hexDigitChar (nlo % 16) (Nat.mod_lt _ (by omega))
    have hstep := scanJStringF_u_pair _ _ _ _ _ _ _ _ _ _ _ _ _ _ _ _ fuel tail
      a3 a2 a1 a0 b3 b2 b1 b0 (by constructor <;> omega) (by constructor <;> omega)
    have hn : ((nhi / 4096 % 16 * 16 + nhi / 256 % 16) * 16 +
        nhi / 16 % 16) * 16 + nhi % 16 = nhi := by omega
    have hm : ((nlo / 4096 % 16 * 16 + nlo / 256 % 16) * 16 +
        nlo / 16 % 16) * 16 + nlo % 16 = nlo := by omega
    rw [hn, hm] at hstep
    have hrec : 0x10000 + (nhi - 0xd800) * 1024 + (nlo - 0xdc00) = c.toNat := by omega
    rw [hrec, Char.ofNat_toNat c] at hstep
    simpa [hex4] using hstep

theorem jsonEscapeChar_length_pos (c : Char) : 1 ≤ (jsonEscapeChar c).length := by
  simp only [jsonEscapeChar]
  split_ifs <;> simp [hex4]

theorem length_le_flatten_escape (s : List Char) :
    s.length ≤ ((s.map jsonEscapeChar).flatten).length := by
  induction s with
  | nil => simp
  | cons c s ih =>
    have := jsonEscapeChar_length_pos c
    simp only [List.map_cons, List.flatten_cons, List.length_append, List.length_cons]
    omega

theorem scanJStringF_encoded (s : List Char) :
    ∀ (fuel : Nat) (tail : List Char), s.length + 1 ≤ fuel →
      scanJStringF fuel ((s.map jsonEscapeChar).flatten ++ '"' :: tail) =
        some (s, tail) := by
  induction s with
  | nil =>
    intro fuel tail hf
    obtain ⟨f, rfl⟩ : ∃ f, fuel = f + 1 := ⟨fuel - 1, by omega⟩
    simpa using scanJStringF_quote f tail
  | cons c s ih =>
    intro fuel tail hf
    obtain ⟨f, rfl⟩ : ∃ f, fuel = f + 1 := ⟨fuel - 1, by omega⟩
    simp only [List.map_cons, List.flatten_cons, List.append_assoc]
    rw [scanJStringF_escape]
    rw [ih f tail (by simp at hf; omega)]
    rfl

theorem scanJString_encoded (s : List Char) (tail : List Char) :
    scanJString ((s.map jsonEscapeChar).flatten ++ '"' :: tail) = some (s, tail) := by
  have hlen := length_le_flatten_escape s
  unfold scanJString
  refine scanJStringF_encoded s _ tail ?_
  rw [List.length_append]
  simp only [List.length_cons]
  omega

theorem parseJStringTok_encoded (s : List Char) (tail : List Char) :
    parseJStringTok (jsonStringChars s ++ tail) = some (s, tail) := by
  show parseJStringTok ((('"' :: (s.map jsonEscapeChar).flatten ++ ['"']) ++ tail)) = _
  simp only [List.cons_append, List.append_assoc, List.singleton_append]
  simp only [parseJStringTok, if_pos rfl]
  exact scanJString_encoded s tail

/-! ### Round-trip: integers -/

theorem digitChar_isDigit : ∀ k, k < 10 → (Char.ofNat (48 + k)).isDigit = true := by
  decide

theorem digitChar_toNat : ∀ k, k < 10 → (Char.ofNat (48 + k)).toNat = 48 + k := by
  decide

theorem toDecimal_all_digits (n : Nat) : ∀ c ∈ toDecimal n, c.isDigit = true := by
  induction n using Nat.strong_induction_on with
  | _ n ih =>
    rw [toDecimal]
    by_cases h : n < 10
    · rw [dif_pos h]
      intro c hc
      simp only [List.mem_singleton] at hc
      subst hc
      exact digitChar_isDigit n h
    · rw [dif_neg h]
      intro c hc
      rcases List.mem_append.mp hc with h1 | h1
      · exact ih (n / 10) (Nat.div_lt_self (by omega) (by omega)) c h1
      · simp only [List.mem_singleton] at h1
        subst h1
        exact digitChar_isDigit (n % 10) (Nat.mod_lt _ (by omega))

theorem toDecimal_ne_nil (n : Nat) : toDecimal n ≠ [] := by
  rw [toDecimal]
  by_cases h : n < 10
  · rw [dif_pos h]; simp
  · rw [dif_neg h]; simp

theorem parseDigitsAux_append (ds : List Char) :
    ∀ (acc : Nat) (tail : List Char), (∀ c ∈ ds, c.isDigit = true) →
      headNotDigit tail = true →
      parseDigitsAux acc (ds ++ tail) =
        (ds.foldl (fun a c => a * 10 + (c.toNat - 48)) acc, tail) := by
  induction ds with
  | nil =>
    intro acc tail _ ht
    cases tail with
    | nil => rfl
    | cons c rest =>
      simp only [headNotDigit, Bool.not_eq_true'] at ht
      simp [parseDigitsAux, ht]
  | cons d ds ih =>
    intro acc tail hd ht
    have hdig : d.isDigit = true := hd d (by simp)
    simp only [List.cons_append, parseDigitsAux, hdig, if_pos, List.foldl_cons]
    exact ih _ tail (fun c hc => hd c (by simp [hc])) ht

theorem foldl_toDecimal (n : Nat) :
    ∀ acc : Nat, (toDecimal n).foldl (fun a c => a * 10 + (c.toNat - 48)) acc =
      acc * 10 ^ (toDecimal n).length + n := by
  induction n using Nat.strong_induction_on with
  | _ n ih =>
    intro acc
    rw [toDecimal]
    by_cases h : n < 10
    · rw [dif_pos h]
      simp [digitChar_toNat n h]
    · rw [dif_neg h]
      rw [List.foldl_append]
      rw [ih (n / 10) (Nat.div_lt_self (by omega) (by omega)) acc]
      simp only [List.foldl_cons, List.foldl_nil, List.length_append,
        List.length_singleton]
      rw [digitChar_toNat (n % 10) (Nat.mod_lt _ (by omega))]
      have hm : 48 + n % 10 - 48 = n % 10 := by omega
      rw [hm, pow_succ]
      calc (acc * 10 ^ (toDecimal (n / 10)).length + n / 10) * 10 + n % 10
          = acc * (10 ^ (toDecimal (n / 10)).length * 10) + (n / 10 * 10 + n % 10) := by
            ring
        _ = acc * (10 ^ (toDecimal (n / 10)).length * 10) + n := by
            have hdm : n / 10 * 10 + n % 10 = n := by omega
            rw [hdm]

theorem parseDigits_toDecimal (n : Nat) (tail : List Char)
    (ht : headNotDigit tail = true) :
    parseDigits (toDecimal n ++ tail) = some (n, tail) := by
  obtain ⟨d, ds, hds⟩ : ∃ d ds, toDecimal n = d :: ds := by
    cases h : toDecimal n with
    | nil => exact absurd h (toDecimal_ne_nil n)
    | cons d ds => exact ⟨d, ds, rfl⟩
  have hall := toDecimal_all_digits n
  rw [hds] at hall ⊢
  have hdig : d.isDigit = true := hall d (by simp)
  simp only [List.cons_append, parseDigits, hdig, if_pos]
  have := parseDigitsAux_append ds (d.toNat - 48) tail
    (fun c hc => hall c (by simp [hc])) ht
  rw [this]
  have hfold := foldl_toDecimal n 0
  rw [hds] at hfold
  simp only [List.foldl_cons, Nat.zero_mul, Nat.zero_add] at hfold
  rw [hfold]

theorem isDigit_ne_lit (c : Char) (h : c.isDigit = true) :
    ¬c = 't' ∧ ¬c = 'f' ∧ ¬c = '"' ∧ ¬c = '-' := by
  refine ⟨?_, ?_, ?_, ?_⟩ <;> rintro rfl <;> simp [Char.isDigit] at h

theorem parseJVal_int (i : Int) (tail : List Char) (ht : headNotDigit tail = true) :
    parseJVal (intDecimal i ++ tail) = some (.pint i, tail) := by
  by_cases hneg : i < 0
  · simp only [intDecimal, if_pos hneg, List.cons_append]
    have n1 : ¬('-' : Char) = 't' := by decide
    have n2 : ¬('-' : Char) = 'f' := by decide
    have n3 : ¬('-' : Char) = '"' := by decide
    simp only [parseJVal, if_neg n1, if_neg n2, if_neg n3, if_pos rfl]
    rw [parseDigits_toDecimal i.natAbs tail ht]
    have hval : -((i.natAbs : Nat) : Int) = i := by omega
    simp only [Option.map_some']
    rw [hval]
    simp
  · simp only [intDecimal, if_neg hneg]
    obtain ⟨d, ds, hds⟩ : ∃ d ds, toDecimal i.toNat = d :: ds := by
      cases h : toDecimal i.toNat with
      | nil => exact absurd h (toDecimal_ne_nil _)
      | cons d ds => exact ⟨d, ds, rfl⟩
    have hall := toDecimal_all_digits i.toNat
    rw [hds] at hall
    have hdig : d.isDigit = true := hall d (by simp)
    obtain ⟨n1, n2, n3, n4⟩ := isDigit_ne_lit d hdig
    rw [hds, List.cons_append]
    simp only [parseJVal, if_neg n1, if_neg n2, if_neg n3, if_neg n4, if_pos hdig]
    rw [← List.cons_append, ← hds, parseDigits_toDecimal i.toNat tail ht]
    have hval : ((i.toNat : Nat) : Int) = i := by omega
    simp only [Option.map_some']
    rw [hval]

theorem string_mk_toList (s : String) : String.mk s.toList = s := rfl

theorem parseJVal_bool (b : Bool) (tail : List Char) :
    parseJVal (jsonValChars (.pbool b) ++ tail) = some (.pbool b, tail) := by
  cases b <;> simp [jsonValChars, parseJVal]

theorem parseJVal_str (s : String) (tail : List Char) :
    parseJVal (jsonValChars (.pstr s) ++ tail) = some (.pstr s, tail) := by
  have hshape : jsonValChars (.pstr s) ++ tail =
      '"' :: ((s.toList.map jsonEscapeChar).flatten ++ '"' :: tail) := by
    simp [jsonValChars, jsonStringChars]
  rw [hshape]
  have hsc := scanJString_encoded s.toList tail
  simp only [parseJVal, hsc]
  simp

theorem parseJVal_encoded (v : PyVal) (tail : List Char)
    (ht : headNotDigit tail = true) :
    parseJVal (jsonValChars v ++ tail) = some (v, tail) := by
  cases v with
  | pbool b => exact parseJVal_bool b tail
  | pint i => exact parseJVal_int i tail ht
  | pstr s => exact parseJVal_str s tail

/-! ### Round-trip: arrays of strings -/

theorem sepJoin_cons (sep a : List Char) (l : List (List Char)) :
    sepJoin sep (a :: l) = a ++ (l.map fun b => sep ++ b).flatten := by
  induction l generalizing a with
  | nil => simp [sepJoin]
  | cons b l ih =>
    rw [sepJoin, ih b]
    simp [List.append_assoc]

theorem parseArrayRest_encoded (xs : List (List Char)) :
    ∀ (fuel : Nat) (tail : List Char), xs.length + 1 ≤ fuel →
      parseArrayRest fuel
          ((xs.map fun s => ',' :: ' ' :: jsonStringChars s).flatten ++ ']' :: tail) =
        some (xs, tail) := by
  induction xs with
  | nil =>
    intro fuel tail hf
    obtain ⟨f, rfl⟩ : ∃ f, fuel = f + 1 := ⟨fuel - 1, by omega⟩
    simp [parseArrayRest]
  | cons x xs ih =>
    intro fuel tail hf
    obtain ⟨f, rfl⟩ : ∃ f, fuel = f + 1 := ⟨fuel - 1, by omega⟩
    have hlen : xs.length + 1 ≤ f := by simp at hf; omega
    simp only [List.map_cons, List.flatten_cons, List.cons_append, List.append_assoc]
    have htok := parseJStringTok_encoded x
      ((xs.map fun s => ',' :: ' ' :: jsonStringChars s).flatten ++ ']' :: tail)
    simp [parseArrayRest, htok, ih f tail hlen]

theorem arrayItems_length_bound (xs : List (List Char)) :
    xs.length ≤ ((xs.map fun s => ',' :: ' ' :: jsonStringChars s).flatten).length := by
  induction xs with
  | nil => simp
  | cons x xs ih =>
    simp only [List.map_cons, List.flatten_cons, List.length_append, List.length_cons]
    omega

theorem parseArrayTok_encoded (xs : List (List Char)) (tail : List Char) :
    parseArrayTok (jsonArrayChars xs ++ tail) = some (xs, tail) := by
  cases xs with
  | nil => simp [jsonArrayChars, sepJoin, parseArrayTok]
  | cons x xs =>
    have hcomp : ((fun b => [',', ' '] ++ b) ∘ jsonStringChars) =
        (fun s => ',' :: ' ' :: jsonStringChars s) := funext fun s => rfl
    have hshape : jsonArrayChars (x :: xs) ++ tail =
        '[' :: '"' :: ((x.map jsonEscapeChar).flatten ++ '"' ::
          ((xs.map fun s => ',' :: ' ' :: jsonStringChars s).flatten ++
            ']' :: tail)) := by
      rw [jsonArrayChars, List.map_cons, sepJoin_cons, List.map_map, hcomp]
      simp [jsonStringChars]
    rw [hshape]
    have htok : parseJStringTok ('"' :: ((x.map jsonEscapeChar).flatten ++ '"' ::
        ((xs.map fun s => ',' :: ' ' :: jsonStringChars s).flatten ++ ']' :: tail))) =
        some (x, (xs.map fun s => ',' :: ' ' :: jsonStringChars s).flatten ++
          ']' :: tail) := by
      have := parseJStringTok_encoded x
        ((xs.map fun s => ',' :: ' ' :: jsonStringChars s).flatten ++ ']' :: tail)
      simpa [jsonStringChars] using this
    have hb := arrayItems_length_bound xs
    have hrest := parseArrayRest_encoded xs
      (((xs.map fun s => ',' :: ' ' :: jsonStringChars s).flatten ++
        ']' :: tail).length + 1) tail
      (by rw [List.length_append]; simp only [List.length_cons]; omega)
    simp only [parseArrayTok, htok]
    rw [hrest]
    simp


theorem pyJsonLoadsStrList_dumps (xs : List String) :
    pyJsonLoadsStrList (pyJsonDumpsStrList xs) = some xs := by
  unfold pyJsonLoadsStrList pyJsonDumpsStrList
  have h := parseArrayTok_encoded (xs.map String.toList) []
  rw [List.append_nil] at h
  rw [show (String.mk (jsonArrayChars (xs.map String.toList))).toList =
    jsonArrayChars (xs.map String.toList) from rfl]
  rw [h]
  simp [List.map_map, show (String.mk ∘ String.toList) = id from funext fun s => rfl]

/-! ### Round-trip: objects -/

theorem parseJPair_encoded (k : List Char) (v : PyVal) (tail : List Char)
    (ht : headNotDigit tail = true) :
    parseJPair (jsonStringChars k ++ ':' :: ' ' :: (jsonValChars v ++ tail)) =
      some ((k, v), tail) := by
  have htok := parseJStringTok_encoded k (':' :: ' ' :: (jsonValChars v ++ tail))
  have hval := parseJVal_encoded v tail ht
  simp [parseJPair, htok, hval]

theorem objItems_headNotDigit (m : List (List Char × PyVal)) (tail : List Char) :
    headNotDigit
      ((m.map fun p =>
          ',' :: ' ' :: (jsonStringChars p.1 ++ ':' :: ' ' :: jsonValChars p.2)).flatten ++
        '\x7d' :: tail) = true := by
  cases m <;> simp [headNotDigit]

theorem parseObjRest_encoded (m : List (List Char × PyVal)) :
    ∀ (fuel : Nat) (tail : List Char), m.length + 1 ≤ fuel →
      parseObjRest fuel
          ((m.map fun p =>
              ',' :: ' ' :: (jsonStringChars p.1 ++ ':' :: ' ' :: jsonValChars p.2)).flatten ++
            '\x7d' :: tail) =
        some (m, tail) := by
  induction m with
  | nil =>
    intro fuel tail hf
    obtain ⟨f, rfl⟩ : ∃ f, fuel = f + 1 := ⟨fuel - 1, by omega⟩
    simp [parseObjRest]
  | cons kv m ih =>
    intro fuel tail hf
    obtain ⟨f, rfl⟩ : ∃ f, fuel = f + 1 := ⟨fuel - 1, by omega⟩
    have hlen : m.length + 1 ≤ f := by simp at hf; omega
    simp only [List.map_cons, List.flatten_cons, List.cons_append, List.append_assoc]
    have hpair := parseJPair_encoded kv.1 kv.2
      ((m.map fun p =>
          ',' :: ' ' :: (jsonStringChars p.1 ++ ':' :: ' ' :: jsonValChars p.2)).flatten ++
        '\x7d' :: tail) (objItems_headNotDigit m tail)
    simp [parseObjRest, hpair, ih f tail hlen]

theorem objItems_length_bound (m : List (List Char × PyVal)) :
    m.length ≤ ((m.map fun p =>
        ',' :: ' ' :: (jsonStringChars p.1 ++ ':' :: ' ' :: jsonValChars p.2)).flatten).length := by
  induction m with
  | nil => simp
  | cons kv m ih =>
    simp only [List.map_cons, List.flatten_cons, List.length_append, List.length_cons]
    omega

theorem parseObjTok_encoded (m : List (List Char × PyVal)) (tail : List Char) :
    parseObjTok (jsonObjChars m ++ tail) = some (m, tail) := by
  cases m with
  | nil => simp [jsonObjChars, sepJoin, parseObjTok]
  | cons kv m =>
    have hcomp : ((fun b => [',', ' '] ++ b) ∘
        fun p : List Char × PyVal =>
          jsonStringChars p.1 ++ ':' :: ' ' :: jsonValChars p.2) =
        (fun p : List Char × PyVal =>
          ',' :: ' ' :: (jsonStringChars p.1 ++ ':' :: ' ' :: jsonValChars p.2)) :=
      funext fun p => rfl
    have hshape : jsonObjChars (kv :: m) ++ tail =
        '\x7b' :: '"' :: ((kv.1.map jsonEscapeChar).flatten ++ '"' ::
          (':' :: ' ' :: (jsonValChars kv.2 ++
            ((m.map fun p =>
                ',' :: ' ' :: (jsonStringChars p.1 ++ ':' :: ' ' :: jsonValChars p.2)).flatten ++
              '\x7d' :: tail)))) := by
      rw [jsonObjChars, List.map_cons, sepJoin_cons, List.map_map, hcomp]
      simp [jsonStringChars]
    rw [hshape]
    have hpair := parseJPair_encoded kv.1 kv.2
      ((m.map fun p =>
          ',' :: ' ' :: (jsonStringChars p.1 ++ ':' :: ' ' :: jsonValChars p.2)).flatten ++
        '\x7d' :: tail) (objItems_headNotDigit m tail)
    have hpair2 : parseJPair ('"' :: ((kv.1.map jsonEscapeChar).flatten ++ '"' ::
        (':' :: ' ' :: (jsonValChars kv.2 ++
          ((m.map fun p =>
              ',' :: ' ' :: (jsonStringChars p.1 ++ ':' :: ' ' :: jsonValChars p.2)).flatten ++
            '\x7d' :: tail))))) = some ((kv.1, kv.2),
          (m.map fun p =>
              ',' :: ' ' :: (jsonStringChars p.1 ++ ':' :: ' ' :: jsonValChars p.2)).flatten ++
            '\x7d' :: tail) := by
      rw [← hpair]
      congr 1
      simp [jsonStringChars]
    have hb := objItems_length_bound m
    have hrest := parseObjRest_encoded m
      (((m.map fun p =>
          ',' :: ' ' :: (jsonStringChars p.1 ++ ':' :: ' ' :: jsonValChars p.2)).flatten ++
        '\x7d' :: tail).length + 1) tail
      (by rw [List.length_append]; simp only [List.length_cons]; omega)
    simp only [parseObjTok, hpair2]
    rw [hrest]
    simp

theorem map_mk_comp (m : List (String × PyVal)) :
    ((m.map fun p : String × PyVal => (p.1.toList, p.2)).map
      fun p : List Char × PyVal => (String.mk p.1, p.2)) = m := by
  induction m with
  | nil => rfl
  | cons p m ih =>
    simp only [List.map_cons]
    rw [ih]
    rfl

theorem pyJsonLoadsSettings_dumps (m : List (String × PyVal)) :
    pyJsonLoadsSettings (pyJsonDumpsSettings m) = some m := by
  unfold pyJsonLoadsSettings pyJsonDumpsSettings
  have h := parseObjTok_encoded (m.map fun p => (p.1.toList, p.2)) []
  rw [List.append_nil] at h
  rw [show (String.mk (jsonObjChars (m.map fun p => (p.1.toList, p.2)))).toList =
    jsonObjChars (m.map fun p => (p.1.toList, p.2)) from rfl]
  rw [h]
  show some (((m.map fun p => (p.1.toList, p.2)).map
    fun p : List Char × PyVal => (String.mk p.1, p.2))) = some m
  rw [map_mk_comp m]

/-! ### Python dict semantics -/

theorem find?_isSome_eq_any (p : String → Bool) (l : List String) :
    (l.find? p).isSome = l.any p := by
  induction l with
  | nil => rfl
  | cons x l ih =>
    by_cases hx : p x = true
    · simp [List.find?_cons, List.any_cons, hx]
    · simp only [Bool.not_eq_true] at hx
      simp [List.find?_cons, List.any_cons, hx, ih]

theorem getLast?_cons_or {α : Type} (x : α) (xs : List α) :
    (x :: xs).getLast? = xs.getLast?.or (some x) := by
  induction xs generalizing x with
  | nil => rfl
  | cons y ys ih =>
    rw [List.getLast?_cons_cons, ih y]
    cases hys : ys.getLast? with
    | none => rfl
    | some z => rfl

theorem lookupVal_dictInsert (acc : List (String × PyVal)) (kv : String × PyVal)
    (k : String) :
    lookupVal (dictInsert acc kv) k =
      if kv.1 = k then some kv.2 else lookupVal acc k := by
  unfold dictInsert lookupVal
  by_cases hany : (acc.any fun p => p.1 == kv.1) = true
  · rw [if_pos hany, List.find?_map]
    have hcomp : ((fun p : String × PyVal => p.1 == k) ∘
        fun p => if p.1 == kv.1 then (p.1, kv.2) else p) =
        fun p : String × PyVal => p.1 == k := by
      funext p
      by_cases hp : p.1 = kv.1 <;> simp [hp]
    rw [hcomp]
    by_cases hk : kv.1 = k
    · rw [if_pos hk]
      have hex : ∃ q ∈ acc, (q.1 == k) = true := by
        obtain ⟨q, hq, hq2⟩ := List.any_eq_true.mp hany
        exact ⟨q, hq, by simp only [beq_iff_eq] at hq2 ⊢; rw [hq2, hk]⟩
      obtain ⟨q, hq⟩ := Option.isSome_iff_exists.mp (List.find?_isSome.mpr hex)
      have hqk0 := List.find?_some hq
      have hqk : (q.1 == k) = true := hqk0
      rw [hq]
      have hqkv : (q.1 == kv.1) = true := by
        simp only [beq_iff_eq] at hqk ⊢
        rw [hqk, hk]
      have hqe : q.1 = kv.1 := beq_iff_eq.mp hqkv
      simp [hqe]
    · rw [if_neg hk]
      cases hfq : acc.find? fun p => p.1 == k with
      | none => simp
      | some q =>
        have hqk0 := List.find?_some hfq
        have hqk : (q.1 == k) = true := hqk0
        have hqkv : ¬q.1 = kv.1 := by
          simp only [beq_iff_eq] at hqk
          rw [hqk]
          exact fun h => hk h.symm
        simp [hqkv]
  · rw [if_neg hany, List.find?_append]
    by_cases hk : kv.1 = k
    · rw [if_pos hk]
      have hnone : (acc.find? fun p => p.1 == k) = none := by
        rw [List.find?_eq_none]
        intro x hx hxk
        apply hany
        refine List.any_eq_true.mpr ⟨x, hx, ?_⟩
        simp only [beq_iff_eq] at hxk ⊢
        rw [hxk, hk]
      rw [hnone]
      simp [hk]
    · rw [if_neg hk]
      have hbk : (kv.1 == k) = false := by
        simp only [beq_eq_false_iff_ne, ne_eq]
        exact hk
      have hone : List.find? (fun p => p.1 == k) [kv] = none := by
        simp [List.find?, hbk]
      rw [hone]
      simp

theorem lookupVal_foldl (l : List (String × PyVal)) :
    ∀ (acc : List (String × PyVal)) (k : String),
      lookupVal (l.foldl dictInsert acc) k =
        (((l.filter fun p => p.1 == k).getLast?).map Prod.snd).or (lookupVal acc k) := by
  induction l with
  | nil =>
    intro acc k
    simp [List.foldl_nil, List.filter_nil]
  | cons kv l ih =>
    intro acc k
    rw [List.foldl_cons, ih (dictInsert acc kv) k, lookupVal_dictInsert]
    by_cases hk : kv.1 = k
    · have hb : (kv.1 == k) = true := by simp [hk]
      rw [if_pos hk]
      simp only [List.filter_cons, hb, if_pos]
      rw [getLast?_cons_or]
      cases hl : (l.filter fun p => p.1 == k).getLast? with
      | none => rfl
      | some q => rfl
    · have hb : (kv.1 == k) = false := by
        simp only [beq_eq_false_iff_ne, ne_eq]
        exact hk
      rw [if_neg hk]
      simp only [List.filter_cons, hb, if_neg, Bool.false_eq_true, if_false]

theorem lookupVal_pyDict_last (l : List (String × PyVal)) (k : String) :
    lookupVal (pyDict l) k =
      ((l.filter fun p => p.1 == k).getLast?).map Prod.snd := by
  rw [pyDict, lookupVal_foldl l [] k]
  cases hl : ((l.filter fun p => p.1 == k).getLast?).map Prod.snd with
  | none => rfl
  | some v => rfl

/-! ### The claims -/

/-- C1: for every list of database file paths, static mount list and settings
map, the rendered entry-point embeds the basename list, the static labels and
the settings map as literal JSON structures, re-parsing those literals yields
exactly the same lists and map, and boolean settings render as lowercase
`true`/`false`. -/
theorem claim1_entrypoint_roundtrip (files : List String)
    (static : List (String × String)) (template_dir plugins_dir : Option String)
    (settings : List (String × PyVal)) (crossdb : Bool) :
    index_py_content files static template_dir plugins_dir settings crossdb =
        INDEX_PY_seg1 ++ pyJsonDumpsStrList (static.map Prod.fst) ++ INDEX_PY_seg2 ++
          pyJsonDumpsStrList (files.map path_basename) ++ INDEX_PY_seg3 ++
          extras_fragment template_dir plugins_dir ++ INDEX_PY_seg4 ++
          pyJsonDumpsSettings (pyDict settings) ++
          (if crossdb then ",\n    crossdb=True" else "") ++ INDEX_PY_seg5 ∧
      pyJsonLoadsStrList (pyJsonDumpsStrList (files.map path_basename)) =
        some (files.map path_basename) ∧
      pyJsonLoadsStrList (pyJsonDumpsStrList (static.map Prod.fst)) =
        some (static.map Prod.fst) ∧
      pyJsonLoadsSettings (pyJsonDumpsSettings (pyDict settings)) =
        some (pyDict settings) ∧
      (∀ b : Bool, jsonValChars (.pbool b) = (cond b "true" "false").toList) := by
  refine ⟨rfl, pyJsonLoadsStrList_dumps _, pyJsonLoadsStrList_dumps _,
    pyJsonLoadsSettings_dumps _, ?_⟩
  intro b
  cases b <;> rfl

/-- C9: when the settings option is supplied multiple times, the map rendered
into the entry-point (the Python `dict` of the pairs) assigns each name the
value of its last occurrence in argument order; the entry-point literal is
the serialization of exactly that merged map. -/
theorem claim9_settings_last_wins (settings : List (String × PyVal))
    (name : String) :
    lookupVal (pyDict settings) name =
        ((settings.filter fun p => p.1 == name).getLast?).map Prod.snd ∧
      (∀ (files : List String) (static : List (String × String))
          (template_dir plugins_dir : Option String) (crossdb : Bool),
        index_py_content files static template_dir plugins_dir settings crossdb =
          INDEX_PY_format (pyJsonDumpsStrList (files.map path_basename))
            (extras_fragment template_dir plugins_dir)
            (pyJsonDumpsStrList (static.map Prod.fst))
            (pyJsonDumpsSettings (pyDict settings))
            (if crossdb then ",\n    crossdb=True" else "")) :=
  ⟨lookupVal_pyDict_last settings name, fun _ _ _ _ _ => rfl⟩

/-- C10: when the client process exits zero but its status-line output is
empty or not parseable as an integer, `_curl_check` treats the status as 0
and raises an error whose text starts with `HTTP 0:`. -/
theorem claim10_zero_status (r : CurlResult) (hrc : r.returncode = 0)
    (hst : pyStripStr r.stdout = "" ∨ pyInt? (pyStripStr r.stdout) = none) :
    curlStatus r = 0 ∧
      _curl_check r = .error ("HTTP 0: " ++
        (if pyStripStr r.body = "" then "(empty response body)"
          else pyStripStr r.body)) := by
  have h0 : curlStatus r = 0 := by
    unfold curlStatus
    rcases hst with h | h
    · simp [h]
    · by_cases he : pyStripStr r.stdout = ""
      · simp [he]
      · simp [he, h]
  refine ⟨h0, ?_⟩
  unfold _curl_check
  rw [hrc, h0]
  have hs : "HTTP " ++ toString (0 : Int) ++ ": " = "HTTP 0: " := rfl
  simp [hs]

theorem claim10_zero_status_witness :
    _curl_check ⟨0, "abc", "", ""⟩ = .error "HTTP 0: (empty response body)" := by
  have h := (claim10_zero_status ⟨0, "abc", "", ""⟩ rfl (Or.inr (by decide))).2
  rw [if_pos (show pyStripStr "" = "" from rfl)] at h
  exact h

/-- C7: the API trigger issues exactly one POST request, to the dokploy URL
with trailing slashes stripped plus `/api/application.deploy`, with the
`x-api-key`, `accept` and `content-type` headers, and a JSON body mapping
`applicationId` to the application id. -/
theorem claim7_api_trigger (u a k : String) :
    _trigger_dokploy u a k =
        { url := pyRstripSlash u ++ "/api/application.deploy"
          method := "POST"
          headers := ["x-api-key: " ++ k, "accept: application/json",
            "content-type: application/json"]
          data := some (pyJsonDumpsSettings [("applicationId", .pstr a)]) } ∧
      pyJsonDumpsSettings [("applicationId", .pstr a)] =
        "\x7b\"applicationId\": " ++ jsonString a ++ "\x7d" := by
  constructor
  · rfl
  · show String.mk (jsonObjChars [("applicationId".toList, .pstr a)]) = _
    rw [show "\x7b\"applicationId\": " ++ jsonString a ++ "\x7d" =
      String.mk (("\x7b\"applicationId\": ".toList ++ jsonStringChars a.toList) ++
        "\x7d".toList) from rfl]
    congr 1

/-- C2, counterexample: the claim reads the recognizer as a plain prefix
test on the raw requirement string, but the code strips and lowercases
first, so the all-caps spelling is recognized while the claimed
characterization rejects it. -/
theorem claim2_counterexample :
    _looks_like_datasette_requirement "DATASETTE" = true ∧
      ¬("DATASETTE" = "datasette" ∨
        ∃ c rest, c ∈ ['=', '<', '>', '!', '~', '[', ' '] ∧
          "DATASETTE".toList = "datasette".toList ++ c :: rest) := by
  refine ⟨by decide, ?_⟩
  rintro (h | ⟨c, rest, hc, hl⟩)
  · exact absurd h (by decide)
  · rw [show ("DATASETTE" : String).toList =
      ['D', 'A', 'T', 'A', 'S', 'E', 'T', 'T', 'E'] from rfl,
      show ("datasette" : String).toList =
      ['d', 'a', 't', 'a', 's', 'e', 't', 't', 'e'] from rfl] at hl
    simp at hl

/-- C2, amended: a requirement is recognized as naming the framework if and
only if, after stripping surrounding whitespace and lowercasing, it is
exactly `datasette` or it is `datasette` followed immediately by one of
`= < > ! ~ [` or a space; in particular `datasette-foo` is not
recognized. -/
theorem claim2_requirement_charact :
    (∀ req : String,
      _looks_like_datasette_requirement req = true ↔
        (pyLower (pyStrip req.toList) = "datasette".toList ∨
          ∃ c rest, c ∈ ['=', '<', '>', '!', '~', '[', ' '] ∧
            pyLower (pyStrip req.toList) = "datasette".toList ++ c :: rest)) ∧
    _looks_like_datasette_requirement "datasette-foo" = false := by
  refine ⟨?_, by decide⟩
  intro req
  unfold _looks_like_datasette_requirement
  set r := pyLower (pyStrip req.toList) with hr
  by_cases hpre : ("datasette".toList.isPrefixOf r) = true
  · rw [if_pos hpre]
    obtain ⟨t, ht⟩ : ∃ t, "datasette".toList ++ t = r :=
      List.isPrefixOf_iff_prefix.mp hpre
    by_cases heq : r = "datasette".toList
    · rw [if_pos heq]
      simp [heq]
    · rw [if_neg heq]
      cases t with
      | nil => exact absurd (by rw [← ht]; simp) heq
      | cons c rest =>
        have hdrop : r.drop 9 = c :: rest := by
          rw [← ht]
          simp
        rw [hdrop]
        constructor
        · intro hcon
          exact Or.inr ⟨c, rest, List.mem_of_elem_eq_true hcon, ht.symm⟩
        · rintro (h | ⟨c2, rest2, hc2, hl2⟩)
          · exact absurd h heq
          · rw [← ht] at hl2
            have hcc := List.append_cancel_left hl2
            rw [List.cons.injEq] at hcc
            obtain ⟨hcceq, -⟩ := hcc
            rw [hcceq]
            exact List.elem_eq_true_of_mem hc2
  · rw [if_neg hpre]
    constructor
    · intro h
      exact absurd h (by simp)
    · rintro (h | ⟨c, rest, hc, hl⟩)
      · exact absurd (List.isPrefixOf_iff_prefix.mpr ⟨[], by rw [h, List.append_nil]⟩)
          hpre
      · exact absurd (List.isPrefixOf_iff_prefix.mpr ⟨c :: rest, hl.symm⟩) hpre

/-- C4: the dependency-list file content is the newline join of the resolved
framework requirement (the recognized install entry if present, else a
source-archive URL for the branch if one was given, else `datasette`), the
two fixed helper packages, then the install entries not recognized as
framework requirements, in order. -/
theorem claim4_requirements (install : List String) (branch : Option String)
    (_hexcl : ¬(install.any _looks_like_datasette_requirement = true ∧
      truthy branch = true)) :
    requirements_content install branch =
      String.intercalate "\n"
        ((match install.find? _looks_like_datasette_requirement with
          | some r => r
          | none =>
            if truthy branch then datasette_branch_url (branch.getD "")
            else "datasette") ::
          "pysqlite3-binary" :: "uvicorn" ::
          install.filter fun r => !_looks_like_datasette_requirement r) := by
  unfold requirements_content
  cases hf : install.find? _looks_like_datasette_requirement with
  | some r => simp [hf]
  | none =>
    have hfn := List.find?_eq_none.mp hf
    have hfilter : (install.filter fun r => !_looks_like_datasette_requirement r) =
        install :=
      List.filter_eq_self.mpr fun a ha => by simp [hfn a ha]
    rw [hfilter]
    by_cases hb : truthy branch = true <;> simp [hb]

theorem claim4_requirements_witness :
    requirements_content ["numpy"] (some "main") =
      "https://github.com/simonw/datasette/archive/main.zip\npysqlite3-binary\nuvicorn\nnumpy" := by
  have h := claim4_requirements ["numpy"] (some "main") (by decide)
  rw [h]
  decide

theorem and3_eq_false (x y z : Bool)
    (h : ¬(x = true ∧ y = true ∧ z = true)) : (x && y && z) = false := by
  cases x <;> cases y <;> cases z <;>
    first
    | rfl
    | exact absurd ⟨rfl, rfl, rfl⟩ h

/-- C3, counterexample: with the generate-workflow flag set, an invocation
whose install list names the framework and that also supplies a branch
override succeeds (echoing the workflow) instead of failing with a usage
error. -/
theorem claim3_counterexample :
    wfConflictArgs.install.any _looks_like_datasette_requirement = true ∧
      truthy wfConflictArgs.branch = true ∧
      (publish_model wfConflictArgs true).outcome = .workflowEchoed ∧
      (publish_model wfConflictArgs true).outcome.isUsageError = false := by
  exact ⟨by decide, rfl, rfl, rfl⟩

/-- C3, amended: for every invocation with generate-workflow mode not set
whose install list contains a requirement recognized as naming the framework
and that also supplies a branch override, the run fails with the usage error
and makes no deployment attempt: no container-engine and no HTTP-client
invocation occurs. -/
theorem claim3_conflict_fails (a : PublishArgs) (dockerOk : Bool)
    (hwf : a.generate_github_actions = false)
    (hreq : a.install.any _looks_like_datasette_requirement = true)
    (hbr : truthy a.branch = true) :
    (publish_model a dockerOk).outcome = .usageError conflictMsg ∧
      (publish_model a dockerOk).outcome.isUsageError = true ∧
      (publish_model a dockerOk).dockerCalls = [] ∧
      (publish_model a dockerOk).curlCalls = [] := by
  have hfind : (a.install.find? _looks_like_datasette_requirement).isSome = true := by
    rw [find?_isSome_eq_any]
    exact hreq
  refine ⟨?_, ?_, ?_, ?_⟩ <;>
    simp [publish_model, hwf, hfind, hbr, Outcome.isUsageError]

theorem claim3_conflict_fails_witness :
    (publish_model genConflictArgs true).outcome = .usageError conflictMsg :=
  (claim3_conflict_fails genConflictArgs true rfl (by decide) rfl).1

/-- C8, counterexample: an invocation with a generate-only directory set and
generate-workflow mode not set does not always terminate successfully — the
branch-plus-framework-requirement conflict raises a usage error before the
generate-directory copy. -/
theorem claim8_counterexample :
    truthy genConflictArgs.generate_dir = true ∧
      genConflictArgs.generate_github_actions = false ∧
      (publish_model genConflictArgs true).outcome = .usageError conflictMsg := by
  refine ⟨rfl, rfl, ?_⟩
  have hfind : (genConflictArgs.install.find?
      _looks_like_datasette_requirement).isSome = true := by decide
  simp [publish_model, genConflictArgs, hfind]
  rw [if_pos ⟨by decide, rfl⟩]

/-- C8, amended: for every invocation with a generate-only directory set,
generate-workflow mode not set, and not both a branch override and an
explicit framework requirement, the run makes no container-engine and no
HTTP-client invocation, terminates successfully in the generated state, and
the bundle contains the entry-point file, the build-recipe file, the
dependency-list file, and every supplied database file. -/
theorem claim8_generate_only (a : PublishArgs) (dockerOk : Bool)
    (hg : truthy a.generate_dir = true)
    (hwf : a.generate_github_actions = false)
    (hnc : ¬(a.install.any _looks_like_datasette_requirement = true ∧
      truthy a.branch = true)) :
    (publish_model a dockerOk).dockerCalls = [] ∧
      (publish_model a dockerOk).curlCalls = [] ∧
      (publish_model a dockerOk).outcome = .generated (a.generate_dir.getD "") ∧
      "index.py" ∈ (publish_model a dockerOk).bundleFiles ∧
      "Dockerfile" ∈ (publish_model a dockerOk).bundleFiles ∧
      "requirements.txt" ∈ (publish_model a dockerOk).bundleFiles ∧
      ∀ f ∈ a.files, path_basename f ∈ (publish_model a dockerOk).bundleFiles := by
  have hcond : ((a.install.find? _looks_like_datasette_requirement).isSome &&
      truthy a.branch) = false := by
    rw [find?_isSome_eq_any]
    cases hany : a.install.any _looks_like_datasette_requirement
    · rw [Bool.false_and]
    · cases hbr : truthy a.branch
      · rw [Bool.and_false]
      · exact absurd ⟨hany, hbr⟩ hnc
  refine ⟨?_, ?_, ?_, ?_, ?_, ?_, ?_⟩ <;>
    simp [publish_model, hwf, hcond, hg, staged_files]
  intro f hf
  exact Or.inl ⟨f, hf, rfl⟩

theorem claim8_generate_only_witness :
    (publish_model genArgs true).outcome = .generated "app" ∧
      "index.py" ∈ (publish_model genArgs true).bundleFiles ∧
      path_basename "test.db" ∈ (publish_model genArgs true).bundleFiles := by
  have h := claim8_generate_only genArgs true rfl rfl (by decide)
  exact ⟨h.2.2.1, h.2.2.2.1, h.2.2.2.2.2.2 "test.db" (by simp [genArgs])⟩

/-- C5: in direct-deployment mode, after a successful build and push, the API
trigger is called when dokployUrl, applicationId and apiKey are all supplied
(even when a webhook URL is also supplied); otherwise the webhook trigger is
called when a webhook URL is supplied; otherwise no trigger call is made and
the run still succeeds. -/
theorem claim5_trigger_selection (a : PublishArgs)
    (hwf : a.generate_github_actions = false)
    (hnc : ¬(a.install.any _looks_like_datasette_requirement = true ∧
      truthy a.branch = true))
    (hg : truthy a.generate_dir = false)
    (him : truthy a.image = true) :
    (publish_model a true).dockerCalls =
        [["docker", "build", "-t", a.image.getD "", "."],
          ["docker", "push", a.image.getD ""]] ∧
      (truthy a.dokploy_url = true → truthy a.application_id = true →
        truthy a.api_key = true →
        (publish_model a true).curlCalls =
          [_trigger_dokploy (a.dokploy_url.getD "") (a.application_id.getD "")
            (a.api_key.getD "")] ∧
          (publish_model a true).outcome = .completed) ∧
      (¬(truthy a.dokploy_url = true ∧ truthy a.application_id = true ∧
          truthy a.api_key = true) → truthy a.deploy_url = true →
        (publish_model a true).curlCalls =
          [_trigger_webhook (a.deploy_url.getD "") a.token] ∧
          (publish_model a true).outcome = .completed) ∧
      (¬(truthy a.dokploy_url = true ∧ truthy a.application_id = true ∧
          truthy a.api_key = true) → truthy a.deploy_url = false →
        (publish_model a true).curlCalls = [] ∧
          (publish_model a true).outcome = .completed) := by
  have hcond : ((a.install.find? _looks_like_datasette_requirement).isSome &&
      truthy a.branch) = false := by
    rw [find?_isSome_eq_any]
    cases hany : a.install.any _looks_like_datasette_requirement
    · rw [Bool.false_and]
    · cases hbr : truthy a.branch
      · rw [Bool.and_false]
      · exact absurd ⟨hany, hbr⟩ hnc
  refine ⟨?_, ?_, ?_, ?_⟩
  · simp [publish_model, hwf, hcond, hg, him]
  · intro h1 h2 h3
    constructor <;> simp [publish_model, hwf, hcond, hg, him, h1, h2, h3]
  · intro hn hd
    have hfalse := and3_eq_false (truthy a.dokploy_url) (truthy a.application_id)
      (truthy a.api_key) hn
    constructor <;> simp [publish_model, hwf, hcond, hg, him, hfalse, hd]
  · intro hn hd
    have hfalse := and3_eq_false (truthy a.dokploy_url) (truthy a.application_id)
      (truthy a.api_key) hn
    constructor <;> simp [publish_model, hwf, hcond, hg, him, hfalse, hd]

theorem claim5_trigger_selection_witness :
    (publish_model apiArgs true).curlCalls =
      [_trigger_dokploy "https://dokploy.example.com" "app-123" "secret"] :=
  ((claim5_trigger_selection apiArgs rfl (by decide) rfl rfl).2.1 rfl rfl rfl).1

/-- C6, counterexample: on a non-2xx status the error text is not the bare
response body — the code prefixes it with `HTTP <status>: `. -/
theorem claim6_counterexample :
    _curl_check ⟨0, "404", "", "nope"⟩ = .error "HTTP 404: nope" ∧
      "HTTP 404: nope" ≠ "nope" := by
  constructor
  · rfl
  · decide

/-- C6, amended: `_curl_check` raises if and only if the process exited
non-zero or the derived status lies outside [200,300); on non-zero exit the
error text is the stripped diagnostic stream, or `curl failed with code N`
when that is empty; on a bad status the error text is `HTTP <status>: `
followed by the stripped body or a placeholder when the stripped body is
empty; on success the response body is returned. -/
theorem claim6_curl_contract (r : CurlResult) :
    ((_curl_check r).isOk = false ↔
        (r.returncode ≠ 0 ∨ curlStatus r < 200 ∨ 300 ≤ curlStatus r)) ∧
      (r.returncode ≠ 0 →
        _curl_check r = .error (if pyStripStr r.stderr ≠ "" then pyStripStr r.stderr
          else "curl failed with code " ++ toString r.returncode)) ∧
      (r.returncode = 0 → curlStatus r < 200 ∨ 300 ≤ curlStatus r →
        _curl_check r = .error ("HTTP " ++ toString (curlStatus r) ++ ": " ++
          (if pyStripStr r.body = "" then "(empty response body)"
            else pyStripStr r.body))) ∧
      (r.returncode = 0 → 200 ≤ curlStatus r → curlStatus r < 300 →
        _curl_check r = .ok r.body) := by
  simp only [_curl_check]
  by_cases h1 : r.returncode = 0
  · rw [if_neg (by simp [h1])]
    by_cases h2 : curlStatus r < 200 ∨ 300 ≤ curlStatus r
    · rw [if_pos h2]
      refine ⟨⟨fun _ => Or.inr h2, fun _ => rfl⟩, ?_, ?_, ?_⟩
      · intro hne
        exact absurd h1 hne
      · intro _ _
        rfl
      · intro _ hge hlt
        rcases h2 with h2 | h2 <;> omega
    · rw [if_neg h2]
      refine ⟨?_, ?_, ?_, ?_⟩
      · constructor
        · intro hc
          simp [Except.isOk, Except.toBool] at hc
        · rintro (hc | hc)
          · exact absurd h1 hc
          · exact absurd hc h2
      · intro hne
        exact absurd h1 hne
      · intro _ hdis
        exact absurd hdis h2
      · intro _ _ _
        rfl
  · rw [if_pos h1]
    refine ⟨⟨fun _ => Or.inl h1, fun _ => rfl⟩, ?_, ?_, ?_⟩
    · intro _
      rfl
    · intro h0
      exact absurd h0 h1
    · intro h0
      exact absurd h0 h1

theorem claim6_curl_contract_witness :
    (_curl_check ⟨1, "", "x", ""⟩).isOk = false :=
  (claim6_curl_contract ⟨1, "", "x", ""⟩).1.mpr (Or.inl (by decide))

end PublishDokploy
